import Mathlib

/-!
Verification of the weather tool demo (an SSE weather gateway
`src/server.py` and an orchestration client `src/client.py`) against its
natural-language specification.

The development shallowly embeds the two Python modules:

* JSON values (`Json`) model the Python values that `json.dumps` /
  `json.loads` move between.  Numbers are modelled as integers (the claims
  under verification never involve floats), and `json.loads` is modelled by
  a fueled recursive-descent parser faithful to Python's strict decoder
  (JSON whitespace is space, tab, newline, carriage return; raw control
  characters in strings are rejected; only the standard escapes are
  accepted; a document must be fully consumed up to trailing whitespace).
  `json.dumps` is modelled with Python's default separators `", "` and
  `": "`.  Objects are association lists in insertion order, the way
  Python's dicts present them.
* The gateway (`fetch_weather`, `weather_stream`, `get_weather`) is a
  function of an oracle `upstream : String → UpstreamOutcome` standing for
  the one `httpx` call to the weather provider.
* The client (`normalizeArgs`, `processLines`, `call_tool`,
  `process_query`) passes state explicitly: Python's in-place dict
  mutation inside `FakeSession.call_tool` becomes the `args` component of
  the returned `CallOutcome`, and the cities sent to the gateway are
  logged in `gatewayCalls` so that "the gateway was never contacted" is a
  provable statement.  The chat model is an oracle
  `llm : List Message → Option (List Json) → Choice`.
-/

set_option maxHeartbeats 1000000

/-- A JSON value, as passed around by the Python code.  Python floats are out
of scope (numbers are `Int`); object fields keep insertion order like a
Python dict. -/
inductive Json where
  | null : Json
  | bool (b : Bool) : Json
  | num (n : Int) : Json
  | str (s : String) : Json
  | arr (items : List Json) : Json
  | obj (fields : List (String × Json)) : Json
  deriving Repr, Inhabited

/-- Whether a JSON value is a string (a Python `str`). -/
def Json.isStr : Json → Bool
  | .str _ => true
  | _ => false

/-! ## Serialisation: the model of `json.dumps` -/

/-- Lowercase hexadecimal digit character, as Python's `json` emits in
`\uXXXX` escapes. -/
def hexChar (n : Nat) : Char :=
  if n < 10 then Char.ofNat (48 + n) else Char.ofNat (87 + n)

/-- How `json.dumps` escapes one character inside a string literal:
quote and backslash get a backslash, the five named control characters get
their short escapes, the remaining control characters get `\u00XX`, and
everything else is emitted as itself (the `ensure_ascii` transliteration of
non-ASCII characters is not modelled; it does not affect the decoded
value). -/
def escChar (c : Char) : List Char :=
  if c = '"' then ['\\', '"']
  else if c = '\\' then ['\\', '\\']
  else if c = '\n' then ['\\', 'n']
  else if c = '\t' then ['\\', 't']
  else if c = '\r' then ['\\', 'r']
  else if c = Char.ofNat 8 then ['\\', 'b']
  else if c = Char.ofNat 12 then ['\\', 'f']
  else if c.toNat < 32 then ['\\', 'u', '0', '0', hexChar (c.toNat / 16), hexChar (c.toNat % 16)]
  else [c]

/-- Escape a whole string body (no surrounding quotes). -/
def escBody : List Char → List Char
  | [] => []
  | c :: cs => escChar c ++ escBody cs

/-- Decimal digit character for `d < 10`. -/
def digitChar (d : Nat) : Char := Char.ofNat (48 + d)

/-- Decimal representation of a natural number, most significant digit
first, as Python prints it (`"0"` for zero, no leading zeros otherwise). -/
def natChars (n : Nat) : List Char :=
  if n = 0 then ['0'] else ((Nat.digits 10 n).map digitChar).reverse

/-- Decimal representation of an integer (Python `str(int)`). -/
def intChars (n : Int) : List Char :=
  if n < 0 then '-' :: natChars n.natAbs else natChars n.natAbs

mutual
/-- The model of `json.dumps` (default options: item separator `", "`,
key separator `": "`), producing the character list of the document. -/
def Json.dumps : Json → List Char
  | .num n => intChars n
  | .null => "null".data
  | .bool true => "true".data
  | .bool false => "false".data
  | .str s => '"' :: escBody s.data ++ ['"']
  | .arr items => '[' :: Json.dumpsItems items ++ [']']
  | .obj fields => '{' :: Json.dumpsFields fields ++ ['}']

/-- Array items joined by `", "`. -/
def Json.dumpsItems : List Json → List Char
  | [] => []
  | [x] => Json.dumps x
  | x :: y :: rest => Json.dumps x ++ ',' :: ' ' :: Json.dumpsItems (y :: rest)

/-- Object fields, each `"key": value`, joined by `", "`. -/
def Json.dumpsFields : List (String × Json) → List Char
  | [] => []
  | [(k, v)] => '"' :: escBody k.data ++ '"' :: ':' :: ' ' :: Json.dumps v
  | (k, v) :: f :: rest =>
      '"' :: escBody k.data ++ '"' :: ':' :: ' ' :: Json.dumps v ++
        ',' :: ' ' :: Json.dumpsFields (f :: rest)
end

/-! ## Deserialisation: the model of `json.loads` -/

/-- JSON whitespace, exactly the four characters Python's decoder skips. -/
def isJsonWs (c : Char) : Bool :=
  c = ' ' || c = '\t' || c = '\n' || c = '\r'

/-- Drop leading JSON whitespace. -/
def skipWs : List Char → List Char
  | c :: cs => if isJsonWs c then skipWs cs else c :: cs
  | [] => []

/-- Numeric value of a hexadecimal digit character, if it is one. -/
def hexVal (c : Char) : Option Nat :=
  if '0' ≤ c ∧ c ≤ '9' then some (c.toNat - 48)
  else if 'a' ≤ c ∧ c ≤ 'f' then some (c.toNat - 87)
  else if 'A' ≤ c ∧ c ≤ 'F' then some (c.toNat - 55)
  else none

/-- Value of a `\uXXXX` escape's four hexadecimal digits. -/
def hex4 (a b c d : Char) : Option Nat := do
  let va ← hexVal a
  let vb ← hexVal b
  let vc ← hexVal c
  let vd ← hexVal d
  return ((va * 16 + vb) * 16 + vc) * 16 + vd

/-- The character named by a short escape, the ones Python's strict decoder
accepts after a backslash. -/
def escNamed (e : Char) : Option Char :=
  if e = 'n' then some '\n'
  else if e = 't' then some '\t'
  else if e = 'r' then some '\r'
  else if e = 'b' then some (Char.ofNat 8)
  else if e = 'f' then some (Char.ofNat 12)
  else if e = '"' then some '"'
  else if e = '\\' then some '\\'
  else if e = '/' then some '/'
  else none

/-- Parse a JSON string body after the opening quote, up to and including
the closing quote.  Python's strict decoder rejects raw control characters;
surrogate code points in `\uXXXX` escapes are outside the model (Lean's
`Char` has no surrogates) and are rejected. -/
def parseStrBody : List Char → Option (List Char × List Char)
  | [] => none
  | '"' :: rest => some ([], rest)
  | '\\' :: 'u' :: a :: b :: c :: d :: rest =>
      (match hex4 a b c d with
       | some n =>
         if h : n < 55296 then
           (parseStrBody rest).map (fun p => (Char.ofNatAux n (Or.inl h) :: p.1, p.2))
         else none
       | none => none)
  | '\\' :: e :: rest =>
      (match escNamed e with
       | some ch => (parseStrBody rest).map (fun p => (ch :: p.1, p.2))
       | none => none)
  | c :: rest =>
      if c.toNat < 32 then none
      else (parseStrBody rest).map (fun p => (c :: p.1, p.2))

/-- Split a leading run of decimal digits from the rest. -/
def splitDigits : List Char → List Char × List Char
  | c :: cs =>
      if c.isDigit then
        let p := splitDigits cs
        (c :: p.1, p.2)
      else ([], c :: cs)
  | [] => ([], [])

/-- Numeric value of a big-endian digit-character run. -/
def digitsVal (ds : List Char) : Nat :=
  ds.foldl (fun a c => 10 * a + (c.toNat - 48)) 0

/-- Parse an unsigned JSON integer: a nonempty digit run with no leading
zero (except `0` itself). -/
def parseNatTok (cs : List Char) : Option (Nat × List Char) :=
  match splitDigits cs with
  | ([], _) => none
  | (d :: ds, rest) =>
      if d = '0' ∧ ds ≠ [] then none else some (digitsVal (d :: ds), rest)

/-- Parse a JSON integer token, with an optional minus sign.  Python would
continue into a fraction or exponent to build a float; floats are outside
this model, so the token ends at the digit run. -/
def parseIntTok : List Char → Option (Int × List Char)
  | [] => none
  | c :: cs =>
      if c = '-' then (parseNatTok cs).map (fun p => (-(p.1 : Int), p.2))
      else (parseNatTok (c :: cs)).map (fun p => ((p.1 : Int), p.2))

mutual
/-- Parse one JSON value at the head of the input (no leading whitespace:
callers skip it first, the way Python's scanner is called).  Structural on
`fuel`; `loads` supplies fuel that cannot run out. -/
def parseVal : Nat → List Char → Option (Json × List Char)
  | 0, _ => none
  | fuel + 1, cs =>
    match cs with
    | 'n' :: 'u' :: 'l' :: 'l' :: r => some (.null, r)
    | 't' :: 'r' :: 'u' :: 'e' :: r => some (.bool true, r)
    | 'f' :: 'a' :: 'l' :: 's' :: 'e' :: r => some (.bool false, r)
    | '"' :: r => (parseStrBody r).map (fun p => (.str ⟨p.1⟩, p.2))
    | '[' :: r =>
        (match skipWs r with
         | ']' :: r2 => some (.arr [], r2)
         | cs2 => (parseItems fuel cs2).map (fun p => (.arr p.1, p.2)))
    | '{' :: r =>
        (match skipWs r with
         | '}' :: r2 => some (.obj [], r2)
         | cs2 => (parseFields fuel cs2).map (fun p => (.obj p.1, p.2)))
    | c :: r =>
        if c = '-' ∨ c.isDigit then
          (parseIntTok (c :: r)).map (fun p => (.num p.1, p.2))
        else none
    | [] => none

/-- Parse the items of a nonempty array, after the opening bracket and
leading whitespace, up to and including the closing bracket. -/
def parseItems : Nat → List Char → Option (List Json × List Char)
  | 0, _ => none
  | fuel + 1, cs =>
    match parseVal fuel cs with
    | none => none
    | some (v, r) =>
        match skipWs r with
        | ',' :: r2 => (parseItems fuel (skipWs r2)).map (fun p => (v :: p.1, p.2))
        | ']' :: r2 => some ([v], r2)
        | _ => none

/-- Parse the fields of a nonempty object, after the opening brace and
leading whitespace, up to and including the closing brace. -/
def parseFields : Nat → List Char → Option (List (String × Json) × List Char)
  | 0, _ => none
  | fuel + 1, cs =>
    match cs with
    | '"' :: r =>
        (match parseStrBody r with
         | none => none
         | some (k, r1) =>
             match skipWs r1 with
             | ':' :: r2 =>
                 (match parseVal fuel (skipWs r2) with
                  | none => none
                  | some (v, r3) =>
                      match skipWs r3 with
                      | ',' :: r4 =>
                          (parseFields fuel (skipWs r4)).map
                            (fun p => ((⟨k⟩, v) :: p.1, p.2))
                      | '}' :: r4 => some ([(⟨k⟩, v)], r4)
                      | _ => none)
             | _ => none)
    | _ => none
end

/-- The model of `json.loads` on a character list: skip leading whitespace,
parse one value, and require that only whitespace remains.  `none` models a
raised `json.JSONDecodeError`. -/
def loads (cs : List Char) : Option Json :=
  let body := skipWs cs
  match parseVal (body.length + 1) body with
  | some (v, rest) => if skipWs rest = [] then some v else none
  | none => none


/-! ## Python dict operations on argument objects

An argument object (`tool_args` in `client.py`) is a Python dict, modelled
as an association list in insertion order. -/

/-- The arguments dict: string keys, JSON values. -/
abbrev JObj := List (String × Json)

/-- Model of `d[key]` lookups / `key in d` (via `Option.isSome`). -/
def getK : JObj → String → Option Json
  | [], _ => none
  | (k, v) :: t, key => if k = key then some v else getK t key

/-- Model of `key in d`. -/
def hasK (m : JObj) (key : String) : Bool := (getK m key).isSome

/-- Model of `d.pop(key)`: the value and the dict with that entry removed,
or `none` when the key is absent. -/
def popK : JObj → String → Option (Json × JObj)
  | [], _ => none
  | (k, v) :: t, key =>
      if k = key then some (v, t)
      else (popK t key).map (fun p => (p.1, (k, v) :: p.2))

/-- Model of `d[key] = v`: update in place when the key exists, append
otherwise, the way a Python dict keeps insertion order. -/
def setK : JObj → String → Json → JObj
  | [], key, v => [(key, v)]
  | (k, w) :: t, key, v =>
      if k = key then (k, v) :: t else (k, w) :: setK t key v

/-! ## The gateway (`src/server.py`) -/

/-- What the one `httpx` call to the OpenWeather endpoint can come back
with: a successful JSON body, an `httpx.HTTPStatusError` raised by
`raise_for_status()` (carrying the upstream status code), or any other
exception (timeout, connection error, body that is not JSON), carrying the
text that `str(e)` would render. -/
inductive UpstreamOutcome where
  | ok (body : Json) : UpstreamOutcome
  | httpStatusError (status : Nat) : UpstreamOutcome
  | requestFailure (message : String) : UpstreamOutcome

/-- Model of `fetch_weather` (server.py lines 25-47): return the upstream
body, or an `{"error": ...}` object built from the exception. -/
def fetch_weather (upstream : String → UpstreamOutcome) (city : String) : Json :=
  match upstream city with
  | .ok body => body
  | .httpStatusError status =>
      .obj [("error", .str ("HTTP 错误: " ++ toString status))]
  | .requestFailure message =>
      .obj [("error", .str ("请求失败: " ++ message))]

/-- The fixed status notice the stream yields first (server.py line 57). -/
def statusNotice : String := "正在获取天气信息..."

/-- Model of the `weather_stream` generator (server.py lines 56-60): the
status block, then the JSON-encoded weather data, each as one
`data: ...\n\n` block. -/
def weather_stream (upstream : String → UpstreamOutcome) (city : String) : List String :=
  ["data: " ++ statusNotice ++ "\n\n",
   "data: " ++ (⟨Json.dumps (fetch_weather upstream city)⟩ : String) ++ "\n\n"]

/-- The HTTP response of `GET /weather` as the handler produces it: the
status code (an `EventSourceResponse` is sent with 200) and the body
blocks yielded by the generator. -/
structure SSEResponse where
  statusCode : Nat
  blocks : List String

/-- Model of the `get_weather` endpoint (server.py lines 50-62). -/
def get_weather (upstream : String → UpstreamOutcome) (city : String) : SSEResponse :=
  { statusCode := 200, blocks := weather_stream upstream city }

/-! ## The client (`src/client.py`) -/

/-- Model of the synonym mapping at client.py lines 63-67:
`city_name`, else `location`, is popped and written to `city` —
unconditionally, with no check that `city` is absent. -/
def normalizeArgs (args : JObj) : JObj :=
  match popK args "city_name" with
  | some (v, rest) => setK rest "city" v
  | none =>
      match popK args "location" with
      | some (v, rest) => setK rest "city" v
      | none => args

/-- The marker the SSE loop matches with `line.startswith("data:")`. -/
def dataMarker : List Char := ['d', 'a', 't', 'a', ':']

/-- Python `str.strip()` whitespace (the ASCII part; the lines at hand are
ASCII/JSON text). -/
def isPySpace (c : Char) : Bool :=
  c = ' ' || c = '\t' || c = '\n' || c = '\r' || c = Char.ofNat 11 || c = Char.ofNat 12

/-- Model of Python's `str.strip()` on a character list. -/
def pyStrip (cs : List Char) : List Char :=
  ((cs.dropWhile isPySpace).reverse.dropWhile isPySpace).reverse

/-- What one SSE line contributes in the loop at client.py lines 80-94:
`none` when the line lacks the `data:` marker, strips to empty, or fails to
decode; the decoded value otherwise. -/
def lineDecode (line : String) : Option Json :=
  if dataMarker.isPrefixOf line.data then
    let d := pyStrip (line.data.drop 5)
    if d = [] then none
    else loads d
  else none

/-- Model of the `async for line in response.aiter_lines()` loop
(client.py lines 80-94): first line that decodes wins; otherwise fall
through to the `NoWeatherData` error. -/
def processLines : List String → Option Json
  | [] => none
  | line :: ls =>
      if dataMarker.isPrefixOf line.data then
        let d := pyStrip (line.data.drop 5)
        if d = [] then processLines ls
        else
          match loads d with
          | some v => some v
          | none => processLines ls
      else processLines ls

/-- The gateway's response as the client sees it: HTTP status code and the
lines of the body (as `aiter_lines` yields them, without newlines). -/
structure GatewayResponse where
  statusCode : Nat
  lines : List String

/-- The errors `FakeSession.call_tool` can raise, named as the spec's
taxonomy names them; each carries the message of the `ValueError` /
`HTTPStatusError` the Python code raises. -/
inductive ToolError where
  | invalidToolArguments (msg : String) : ToolError
  | gatewayHTTPError (status : Nat) : ToolError
  | noWeatherData (msg : String) : ToolError
  deriving Repr

/-- The result object `call_tool` builds: `content` is the list of segment
`text` payloads (the Python code stores the *decoded* value there). -/
structure ToolResult where
  content : List Json

/-- Everything observable about one `call_tool` run: the result or raised
error, the final state of the (mutated-in-place) argument dict, and the
city values sent to the gateway, in order. -/
structure CallOutcome where
  result : Except ToolError ToolResult
  args : JObj
  gatewayCalls : List Json

/-- Model of `FakeSession.call_tool` (client.py lines 56-96): normalize the
synonyms in `args` (mutating it), require `city`, issue the HTTP request,
fail on a non-2xx status (`raise_for_status`), then scan the SSE lines for
the first JSON payload. -/
def call_tool (gateway : Json → GatewayResponse) (toolName : String) (args : JObj) :
    CallOutcome :=
  let nargs := normalizeArgs args
  match getK nargs "city" with
  | none =>
      { result := .error (.invalidToolArguments "工具调用参数中缺少 'city' 字段"),
        args := nargs, gatewayCalls := [] }
  | some cityVal =>
      let resp := gateway cityVal
      if 200 ≤ resp.statusCode ∧ resp.statusCode < 300 then
        match processLines resp.lines with
        | some v =>
            { result := .ok { content := [v] }, args := nargs, gatewayCalls := [cityVal] }
        | none =>
            { result := .error (.noWeatherData "未能从服务端接收到有效的天气数据"),
              args := nargs, gatewayCalls := [cityVal] }
      else
        { result := .error (.gatewayHTTPError resp.statusCode),
          args := nargs, gatewayCalls := [cityVal] }

/-- A tool descriptor as `FakeSession.list_tools` builds it
(client.py lines 36-54). -/
structure ToolDescriptor where
  name : String
  description : String
  inputSchema : Json
  deriving Repr, Inhabited

/-- Model of `FakeSession.list_tools` (client.py lines 36-54): the fixed
single-element catalog. -/
def list_tools : List ToolDescriptor :=
  [{ name := "query_weather",
     description := "根据城市英文名查询天气。例如：Beijing 表示北京，Shanghai 表示上海。",
     inputSchema :=
       Json.obj
         [("type", .str "object"),
          ("properties",
            Json.obj
              [("city",
                Json.obj
                  [("type", .str "string"),
                   ("description", .str "城市名称（英文，如 Beijing 表示北京）")])]),
          ("required", Json.arr [.str "city"])] }]

/-- Field lookup on a JSON object value. -/
def Json.getField : Json → String → Option Json
  | .obj fields, key => getK fields key
  | _, _ => none

/-- The tool list as `process_query` reformats it for the chat completion
call (client.py lines 108-115). -/
def available_tools : List Json :=
  list_tools.map (fun t =>
    Json.obj
      [("type", .str "function"),
       ("function",
         Json.obj
           [("name", .str t.name),
            ("description", .str t.description),
            ("input_schema", t.inputSchema)])])

/-- One tool call request in a chat completion
(`tool_call.id`, `tool_call.function.name`, `tool_call.function.arguments`,
the last a JSON-encoded string). -/
structure ToolCallReq where
  id : String
  functionName : String
  arguments : String
  deriving Repr

/-- The first choice of a chat completion: its stop reason, message text and
tool call requests. -/
structure Choice where
  finish_reason : String
  content : Option String
  tool_calls : List ToolCallReq

/-- A message of the conversation: user text, an assistant message (as
`model_dump()` re-appends it: content plus tool calls), or a tool-role
message whose content is the value `call_tool` returned (stored untouched)
tagged with the call id it answers. -/
inductive Message where
  | user (content : String) : Message
  | assistant (content : Option String) (tool_calls : List ToolCallReq) : Message
  | tool (content : Json) (tool_call_id : String) : Message
  deriving Repr

/-- How a `process_query` run can fail (exceptions propagating out of it):
`tool_calls[0]` on an empty list, `json.loads` failing on the arguments
(the spec's `MalformedToolArguments`), a decoded argument payload that is
not an object (the membership tests would raise `TypeError`), or an error
raised inside `call_tool`. -/
inductive QueryFailure where
  | noToolCall : QueryFailure
  | malformedToolArguments : QueryFailure
  | argumentsNotAnObject : QueryFailure
  | toolFailure (e : ToolError) : QueryFailure
  deriving Repr

/-- Everything observable about one `process_query` run: the returned text
(or the exception), the conversation passed to the second completion call
when one is made, and the gateway contacts. -/
structure QueryOutcome where
  result : Except QueryFailure (Option String)
  secondCallMessages : Option (List Message)
  gatewayCalls : List Json

/-- Model of `MCPClient.process_query` (client.py lines 101-151).  The chat
model is the oracle `llm`, taking the conversation and the optional tool
catalog.  On a `tool_calls` stop reason: decode the first call's arguments,
run `call_tool`, append the assistant message and the tool message (content
is the decoded result value, tagged with the call id), and return the
second completion's text; otherwise return the first completion's text. -/
def process_query (llm : List Message → Option (List Json) → Choice)
    (gateway : Json → GatewayResponse) (query : String) : QueryOutcome :=
  let messages : List Message := [.user query]
  let choice := llm messages (some available_tools)
  if choice.finish_reason = "tool_calls" then
    match choice.tool_calls with
    | [] => { result := .error .noToolCall, secondCallMessages := none, gatewayCalls := [] }
    | tc :: _ =>
        match loads tc.arguments.data with
        | some (.obj toolArgs) =>
            let callRes := call_tool gateway tc.functionName toolArgs
            match callRes.result with
            | .error e =>
                { result := .error (.toolFailure e), secondCallMessages := none,
                  gatewayCalls := callRes.gatewayCalls }
            | .ok r =>
                let messages2 := messages ++
                  [.assistant choice.content choice.tool_calls,
                   .tool (r.content.headD .null) tc.id]
                let choice2 := llm messages2 none
                { result := .ok choice2.content, secondCallMessages := some messages2,
                  gatewayCalls := callRes.gatewayCalls }
        | some _ =>
            { result := .error .argumentsNotAnObject, secondCallMessages := none,
              gatewayCalls := [] }
        | none =>
            { result := .error .malformedToolArguments, secondCallMessages := none,
              gatewayCalls := [] }
  else
    { result := .ok choice.content, secondCallMessages := none, gatewayCalls := [] }

/-- A model stub for the end-to-end scenario of the spec: with a tool
catalog it requests `query_weather{"city": "Beijing"}`; without one (the
second completion) it answers with the final text. -/
def beijingStubModel : List Message → Option (List Json) → Choice := fun _ tools =>
  match tools with
  | some _ =>
      { finish_reason := "tool_calls", content := none,
        tool_calls := [{ id := "call_1", functionName := "query_weather",
                         arguments := "\x7b\"city\": \"Beijing\"\x7d" }] }
  | none =>
      { finish_reason := "stop", content := some "It is 20\u00b0C in Beijing",
        tool_calls := [] }

/-- A gateway stub answering 200 with the spec's example stream. -/
def beijingStubGateway : Json → GatewayResponse := fun _ =>
  { statusCode := 200,
    lines := ["data: fetching...", "", "data: \x7b\"temp\": 20\x7d", ""] }

/-! Sanity checks of the `json.loads` model on concrete documents. -/

example : loads "\x7b\"temp\": 20\x7d".data = some (.obj [("temp", .num 20)]) := rfl
example : loads "fetching...".data = none := rfl
example : loads " [20, null, \"x\"] ".data = some (.arr [.num 20, .null, .str "x"]) := rfl
example : loads "\x7b\"a\": [true, -5], \"b\": \x7b\x7d\x7d".data
    = some (.obj [("a", .arr [.bool true, .num (-5)]), ("b", .obj [])]) := rfl
example : loads "\"a\\u0041\\n\"".data = some (.str "aA\n") := rfl
example : loads "20 x".data = none := rfl

/-! ## Lemmas about the dict operations -/

theorem getK_none_of_all_ne (m : JObj) (key : String)
    (hall : ∀ p ∈ m, p.1 ≠ key) : getK m key = none := by
  induction m with
  | nil => simp [getK]
  | cons hd t ih =>
      obtain ⟨a, b⟩ := hd
      simp only [getK, if_neg (hall (a, b) (by simp))]
      exact ih (fun p hp => hall p (by simp [hp]))

theorem getK_setK_self (m : JObj) (key : String) (v : Json) :
    getK (setK m key v) key = some v := by
  induction m with
  | nil => simp [setK, getK]
  | cons hd t ih =>
      obtain ⟨k, w⟩ := hd
      by_cases hk : k = key
      · simp [setK, hk, getK]
      · simp [setK, hk, getK, ih]

theorem getK_setK_ne (m : JObj) (key : String) (v : Json) (k' : String)
    (hne : k' ≠ key) : getK (setK m key v) k' = getK m k' := by
  induction m with
  | nil => simp [setK, getK, Ne.symm hne]
  | cons hd t ih =>
      obtain ⟨k, w⟩ := hd
      by_cases hk : k = key
      · subst hk
        simp [setK, getK, Ne.symm hne]
      · simp [setK, hk, getK, ih]

theorem popK_none_iff (m : JObj) (key : String) :
    popK m key = none ↔ getK m key = none := by
  induction m with
  | nil => simp [popK, getK]
  | cons hd t ih =>
      obtain ⟨k, w⟩ := hd
      by_cases hk : k = key
      · simp [popK, getK, hk]
      · simp [popK, getK, hk, ih]

theorem popK_getK (m : JObj) (key : String) (v : Json) (rest : JObj)
    (h : popK m key = some (v, rest)) : getK m key = some v := by
  induction m generalizing rest with
  | nil => simp [popK] at h
  | cons hd t ih =>
      obtain ⟨k, w⟩ := hd
      by_cases hk : k = key
      · simp [popK, hk] at h
        simp [getK, hk, h.1]
      · simp only [popK, if_neg hk, Option.map_eq_some'] at h
        obtain ⟨⟨v2, r2⟩, hp, he⟩ := h
        simp only [Prod.mk.injEq] at he
        rw [he.1] at hp
        simp [getK, hk]
        exact ih r2 hp

theorem popK_getK_ne (m : JObj) (key : String) (v : Json) (rest : JObj)
    (h : popK m key = some (v, rest)) (k' : String) (hne : k' ≠ key) :
    getK rest k' = getK m k' := by
  induction m generalizing rest with
  | nil => simp [popK] at h
  | cons hd t ih =>
      obtain ⟨k, w⟩ := hd
      by_cases hk : k = key
      · subst hk
        simp [popK] at h
        obtain ⟨hwv, htr⟩ := h
        subst htr
        simp [getK, Ne.symm hne]
      · simp only [popK, if_neg hk, Option.map_eq_some'] at h
        obtain ⟨⟨v2, r2⟩, hp, he⟩ := h
        simp only [Prod.mk.injEq] at he
        rw [he.1] at hp
        rw [← he.2]
        by_cases hk' : k = k'
        · simp [getK, hk']
        · simp [getK, hk', ih r2 hp]

theorem popK_nodup_getK_self (m : JObj) (key : String) (v : Json) (rest : JObj)
    (hnd : (m.map Prod.fst).Nodup) (h : popK m key = some (v, rest)) :
    getK rest key = none := by
  induction m generalizing rest with
  | nil => simp [popK] at h
  | cons hd t ih =>
      obtain ⟨k, w⟩ := hd
      simp only [List.map_cons, List.nodup_cons] at hnd
      by_cases hk : k = key
      · subst hk
        simp [popK] at h
        obtain ⟨hwv, htr⟩ := h
        subst htr
        refine getK_none_of_all_ne t k (fun p hp hpk => ?_)
        exact hnd.1 (hpk ▸ List.mem_map_of_mem Prod.fst hp)
      · simp only [popK, if_neg hk, Option.map_eq_some'] at h
        obtain ⟨⟨v2, r2⟩, hp, he⟩ := h
        simp only [Prod.mk.injEq] at he
        rw [he.1] at hp
        rw [← he.2]
        simp [getK, hk, ih r2 hnd.2 hp]

theorem popK_length (m : JObj) (key : String) (v : Json) (rest : JObj)
    (h : popK m key = some (v, rest)) : m.length = rest.length + 1 := by
  induction m generalizing rest with
  | nil => simp [popK] at h
  | cons hd t ih =>
      obtain ⟨k, w⟩ := hd
      by_cases hk : k = key
      · simp [popK, hk] at h
        simp [← h.2]
      · simp only [popK, if_neg hk, Option.map_eq_some'] at h
        obtain ⟨⟨v2, r2⟩, hp, he⟩ := h
        simp only [Prod.mk.injEq] at he
        rw [he.1] at hp
        rw [← he.2]
        simp [ih r2 hp]

theorem setK_length_of_present (m : JObj) (key : String) (v w : Json)
    (h : getK m key = some w) : (setK m key v).length = m.length := by
  induction m with
  | nil => simp [getK] at h
  | cons hd t ih =>
      obtain ⟨k, u⟩ := hd
      by_cases hk : k = key
      · simp [setK, hk]
      · simp only [getK, if_neg hk] at h
        simp [setK, hk, ih h]

theorem popK_of_getK (m : JObj) (key : String) (v : Json)
    (h : getK m key = some v) : ∃ rest, popK m key = some (v, rest) := by
  cases hp : popK m key with
  | none =>
      rw [popK_none_iff] at hp
      rw [hp] at h
      exact Option.noConfusion h
  | some p =>
      obtain ⟨v2, rest⟩ := p
      have h2 := popK_getK m key v2 rest hp
      rw [h] at h2
      exact ⟨rest, by rw [show v2 = v from (Option.some.inj h2).symm]⟩

/-- When a synonym key is popped and `city` written back, the result can
never be the original dict: either `city` was absent and is now present, or
it was present and the dict shrank by the popped entry. -/
theorem setK_rest_ne (args : JObj) (syn : String) (v : Json) (rest : JObj)
    (hsyn : syn ≠ "city") (hpop : popK args syn = some (v, rest)) :
    setK rest "city" v ≠ args := by
  intro heq
  cases hgc : getK args "city" with
  | none =>
      have hv : getK (setK rest "city" v) "city" = some v := getK_setK_self rest "city" v
      rw [heq, hgc] at hv
      exact Option.noConfusion hv
  | some w =>
      have hrest : getK rest "city" = some w := by
        rw [popK_getK_ne args syn v rest hpop "city" (Ne.symm hsyn)]
        exact hgc
      have hlen1 : (setK rest "city" v).length = rest.length :=
        setK_length_of_present rest "city" v w hrest
      have hlen2 : args.length = rest.length + 1 := popK_length args syn v rest hpop
      rw [heq] at hlen1
      omega

theorem call_tool_args_eq (gateway : Json → GatewayResponse) (toolName : String)
    (args : JObj) : (call_tool gateway toolName args).args = normalizeArgs args := by
  simp only [call_tool]
  cases hg : getK (normalizeArgs args) "city" with
  | none => rfl
  | some cityVal =>
      by_cases hs : 200 ≤ (gateway cityVal).statusCode ∧ (gateway cityVal).statusCode < 300
      · simp only [if_pos hs]
        cases processLines (gateway cityVal).lines <;> rfl
      · simp only [if_neg hs]

/-! ## Lemmas about the SSE line loop -/

theorem processLines_cons (line : String) (ls : List String) :
    processLines (line :: ls) =
      (if dataMarker.isPrefixOf line.data then
        (if pyStrip (line.data.drop 5) = [] then processLines ls
         else
           match loads (pyStrip (line.data.drop 5)) with
           | some v => some v
           | none => processLines ls)
       else processLines ls) := rfl

theorem lineDecode_eq (line : String) :
    lineDecode line =
      (if dataMarker.isPrefixOf line.data then
        (if pyStrip (line.data.drop 5) = [] then none
         else loads (pyStrip (line.data.drop 5)))
       else none) := rfl

theorem processLines_cons_of_none (line : String) (ls : List String)
    (h : lineDecode line = none) : processLines (line :: ls) = processLines ls := by
  rw [lineDecode_eq] at h
  rw [processLines_cons]
  by_cases hp : dataMarker.isPrefixOf line.data
  · simp only [if_pos hp] at h ⊢
    by_cases hd : pyStrip (line.data.drop 5) = []
    · rw [if_pos hd]
    · simp only [if_neg hd] at h ⊢
      rw [h]
  · rw [if_neg hp]

theorem processLines_cons_of_some (line : String) (ls : List String) (v : Json)
    (h : lineDecode line = some v) : processLines (line :: ls) = some v := by
  rw [lineDecode_eq] at h
  rw [processLines_cons]
  by_cases hp : dataMarker.isPrefixOf line.data
  · simp only [if_pos hp] at h ⊢
    by_cases hd : pyStrip (line.data.drop 5) = []
    · rw [if_pos hd] at h
      exact Option.noConfusion h
    · simp only [if_neg hd] at h ⊢
      rw [h]
  · rw [if_neg hp] at h
    exact Option.noConfusion h

theorem processLines_all_none (ls : List String)
    (h : ∀ l ∈ ls, lineDecode l = none) : processLines ls = none := by
  induction ls with
  | nil => rfl
  | cons line t ih =>
      rw [processLines_cons_of_none line t (h line (by simp))]
      exact ih (fun l hl => h l (by simp [hl]))

/-! ## Shape lemmas for `call_tool` -/

theorem call_tool_eq_of_no_city (gateway : Json → GatewayResponse) (toolName : String)
    (args : JObj) (hc : getK (normalizeArgs args) "city" = none) :
    call_tool gateway toolName args =
      { result := .error (.invalidToolArguments "工具调用参数中缺少 'city' 字段"),
        args := normalizeArgs args, gatewayCalls := [] } := by
  simp only [call_tool, hc]

theorem call_tool_eq_of_city (gateway : Json → GatewayResponse) (toolName : String)
    (args : JObj) (cityVal : Json)
    (hc : getK (normalizeArgs args) "city" = some cityVal) :
    call_tool gateway toolName args =
      (if 200 ≤ (gateway cityVal).statusCode ∧ (gateway cityVal).statusCode < 300 then
        match processLines (gateway cityVal).lines with
        | some v =>
            { result := .ok { content := [v] }, args := normalizeArgs args,
              gatewayCalls := [cityVal] }
        | none =>
            { result := .error (.noWeatherData "未能从服务端接收到有效的天气数据"),
              args := normalizeArgs args, gatewayCalls := [cityVal] }
      else
        { result := .error (.gatewayHTTPError (gateway cityVal).statusCode),
          args := normalizeArgs args, gatewayCalls := [cityVal] }) := by
  simp only [call_tool, hc]

/-! ## The claims -/

/-- C2 (counterexample to the claim as stated): the rename is *not*
guarded on `city` being absent.  On `{"city": "A", "city_name": "B"}` the
code pops `city_name` and overwrites `city`, so the original `city` value
`"A"` is lost, contradicting "an object that already contains `city` keeps
its original `city` value after normalization". -/
theorem claim2_counterexample :
    getK [("city", Json.str "A"), ("city_name", Json.str "B")] "city" = some (Json.str "A") ∧
    normalizeArgs [("city", Json.str "A"), ("city_name", Json.str "B")]
      = [("city", Json.str "B")] ∧
    getK (normalizeArgs [("city", Json.str "A"), ("city_name", Json.str "B")]) "city"
      ≠ some (Json.str "A") := by
  refine ⟨rfl, rfl, fun h => ?_⟩
  have h2 : Json.str "B" = Json.str "A" := Option.some.inj h
  injection h2 with h3
  exact absurd h3 (by decide)

/-- C2 (amended): for every argument object with distinct keys containing
`city_name` or `location` (with `city_name` checked first), normalization
binds `city` to that synonym's value and removes the synonym key, leaving
every other key unchanged — but the rename is performed unconditionally,
so a pre-existing `city` value is overwritten rather than kept; when
neither synonym is present the object is unchanged. -/
theorem claim2_normalization (args : JObj) (hnd : (args.map Prod.fst).Nodup) :
    (∀ v, getK args "city_name" = some v →
        getK (normalizeArgs args) "city" = some v ∧
        getK (normalizeArgs args) "city_name" = none ∧
        ∀ k, k ≠ "city" → k ≠ "city_name" →
          getK (normalizeArgs args) k = getK args k) ∧
    (getK args "city_name" = none →
      ∀ v, getK args "location" = some v →
        getK (normalizeArgs args) "city" = some v ∧
        getK (normalizeArgs args) "location" = none ∧
        ∀ k, k ≠ "city" → k ≠ "location" →
          getK (normalizeArgs args) k = getK args k) ∧
    (getK args "city_name" = none → getK args "location" = none →
        normalizeArgs args = args) := by
  refine ⟨?_, ?_, ?_⟩
  · intro v hv
    obtain ⟨rest, hpop⟩ := popK_of_getK args "city_name" v hv
    have hn : normalizeArgs args = setK rest "city" v := by
      simp only [normalizeArgs, hpop]
    rw [hn]
    refine ⟨getK_setK_self rest "city" v, ?_, ?_⟩
    · rw [getK_setK_ne rest "city" v "city_name" (by decide)]
      exact popK_nodup_getK_self args "city_name" v rest hnd hpop
    · intro k hk1 hk2
      rw [getK_setK_ne rest "city" v k hk1]
      exact popK_getK_ne args "city_name" v rest hpop k hk2
  · intro hcn v hv
    have hpn : popK args "city_name" = none := (popK_none_iff args "city_name").mpr hcn
    obtain ⟨rest, hpop⟩ := popK_of_getK args "location" v hv
    have hn : normalizeArgs args = setK rest "city" v := by
      simp only [normalizeArgs, hpn, hpop]
    rw [hn]
    refine ⟨getK_setK_self rest "city" v, ?_, ?_⟩
    · rw [getK_setK_ne rest "city" v "location" (by decide)]
      exact popK_nodup_getK_self args "location" v rest hnd hpop
    · intro k hk1 hk2
      rw [getK_setK_ne rest "city" v k hk1]
      exact popK_getK_ne args "location" v rest hpop k hk2
  · intro h1 h2
    simp only [normalizeArgs, (popK_none_iff args "city_name").mpr h1,
      (popK_none_iff args "location").mpr h2]

/-- C2 witness: the amended claim at the concrete object
`{"city_name": "Beijing", "units": "metric"}`. -/
theorem claim2_witness :
    (([("city_name", Json.str "Beijing"), ("units", Json.str "metric")].map
        (Prod.fst (α := String) (β := Json))).Nodup) ∧
    getK (normalizeArgs [("city_name", Json.str "Beijing"), ("units", Json.str "metric")])
        "city" = some (Json.str "Beijing") ∧
    getK (normalizeArgs [("city_name", Json.str "Beijing"), ("units", Json.str "metric")])
        "city_name" = none ∧
    getK (normalizeArgs [("city_name", Json.str "Beijing"), ("units", Json.str "metric")])
        "units" = getK [("city_name", Json.str "Beijing"), ("units", Json.str "metric")] "units" :=
  ⟨by decide,
   ((claim2_normalization [("city_name", Json.str "Beijing"), ("units", Json.str "metric")]
       (by decide)).1 (Json.str "Beijing") rfl).1,
   ((claim2_normalization [("city_name", Json.str "Beijing"), ("units", Json.str "metric")]
       (by decide)).1 (Json.str "Beijing") rfl).2.1,
   ((claim2_normalization [("city_name", Json.str "Beijing"), ("units", Json.str "metric")]
       (by decide)).1 (Json.str "Beijing") rfl).2.2 "units" (by decide) (by decide)⟩

/-- C5: the dispatcher's stream loop ignores every line that contributes
nothing (no `data:` marker, empty after stripping, or not decodable) and
returns the decoded value of the first line that decodes, whatever lines
follow it. -/
theorem claim5_first_decodable_wins (pre : List String) (line : String)
    (post : List String) (v : Json)
    (hpre : ∀ l ∈ pre, lineDecode l = none) (hline : lineDecode line = some v) :
    processLines (pre ++ line :: post) = some v := by
  induction pre with
  | nil => exact processLines_cons_of_some line post v hline
  | cons p ps ih =>
      rw [List.cons_append, processLines_cons_of_none p _ (hpre p (by simp))]
      exact ih (fun l hl => hpre l (by simp [hl]))

/-- C5 witness: the spec's example stream — a status line `data: fetching...`
followed by `data: {"temp":20}` — returns `{"temp":20}`, ignoring the first
line and any line after the match. -/
theorem claim5_witness :
    (∀ l ∈ ["data: fetching..."], lineDecode l = none) ∧
    lineDecode "data: \x7b\"temp\":20\x7d" = some (Json.obj [("temp", Json.num 20)]) ∧
    processLines
        ["data: fetching...", "data: \x7b\"temp\":20\x7d", "data: \x7b\"temp\":99\x7d"]
      = some (Json.obj [("temp", Json.num 20)]) :=
  ⟨fun l hl => by
      rw [show l = "data: fetching..." by simpa using hl]
      rfl,
   rfl,
   claim5_first_decodable_wins ["data: fetching..."] "data: \x7b\"temp\":20\x7d"
     ["data: \x7b\"temp\":99\x7d"] (Json.obj [("temp", Json.num 20)])
     (fun l hl => by
       rw [show l = "data: fetching..." by simpa using hl]
       rfl)
     rfl⟩

/-- C6: when normalization leaves no `city` key, `call_tool` raises the
`InvalidToolArguments` error (`ValueError("工具调用参数中缺少 'city' 字段")`)
and the gateway is contacted zero times. -/
theorem claim6_no_city_fails_locally (gateway : Json → GatewayResponse)
    (toolName : String) (args : JObj)
    (h : getK (normalizeArgs args) "city" = none) :
    (call_tool gateway toolName args).result
        = .error (.invalidToolArguments "工具调用参数中缺少 'city' 字段") ∧
    (call_tool gateway toolName args).gatewayCalls = [] := by
  rw [call_tool_eq_of_no_city gateway toolName args h]
  exact ⟨rfl, rfl⟩

/-- C6 witness: the object `{"units": "metric"}` has no city-bearing key;
the call fails locally and the (stubbed) gateway sees zero calls. -/
theorem claim6_witness :
    getK (normalizeArgs [("units", Json.str "metric")]) "city" = none ∧
    (call_tool (fun _ => { statusCode := 200, lines := ["data: \x7b\"temp\": 20\x7d"] })
        "query_weather" [("units", Json.str "metric")]).result
      = .error (.invalidToolArguments "工具调用参数中缺少 'city' 字段") ∧
    (call_tool (fun _ => { statusCode := 200, lines := ["data: \x7b\"temp\": 20\x7d"] })
        "query_weather" [("units", Json.str "metric")]).gatewayCalls = [] :=
  ⟨rfl,
   (claim6_no_city_fails_locally _ "query_weather" [("units", Json.str "metric")] rfl).1,
   (claim6_no_city_fails_locally _ "query_weather" [("units", Json.str "metric")] rfl).2⟩

/-- C7: when the gateway answers 2xx but no line of the stream decodes,
`call_tool` raises `NoWeatherData` after exhausting the stream, having
contacted the gateway exactly once (no retry). -/
theorem claim7_no_data_fails (gateway : Json → GatewayResponse) (toolName : String)
    (args : JObj) (cityVal : Json)
    (hcity : getK (normalizeArgs args) "city" = some cityVal)
    (hok : 200 ≤ (gateway cityVal).statusCode ∧ (gateway cityVal).statusCode < 300)
    (hlines : ∀ l ∈ (gateway cityVal).lines, lineDecode l = none) :
    (call_tool gateway toolName args).result
        = .error (.noWeatherData "未能从服务端接收到有效的天气数据") ∧
    (call_tool gateway toolName args).gatewayCalls = [cityVal] := by
  rw [call_tool_eq_of_city gateway toolName args cityVal hcity, if_pos hok,
    processLines_all_none _ hlines]
  exact ⟨rfl, rfl⟩

/-- C7 witness: a 200 response whose only data line is non-JSON garbage
ends in `NoWeatherData`, with exactly one gateway contact. -/
theorem claim7_witness :
    getK (normalizeArgs [("city", Json.str "Beijing")]) "city" = some (Json.str "Beijing") ∧
    (∀ l ∈ ["data: garbage"], lineDecode l = none) ∧
    (call_tool (fun _ => { statusCode := 200, lines := ["data: garbage"] })
        "query_weather" [("city", Json.str "Beijing")]).result
      = .error (.noWeatherData "未能从服务端接收到有效的天气数据") ∧
    (call_tool (fun _ => { statusCode := 200, lines := ["data: garbage"] })
        "query_weather" [("city", Json.str "Beijing")]).gatewayCalls = [Json.str "Beijing"] :=
  ⟨rfl,
   fun l hl => by
     rw [show l = "data: garbage" by simpa using hl]
     rfl,
   (claim7_no_data_fails _ "query_weather" [("city", Json.str "Beijing")] (Json.str "Beijing")
     rfl (by decide)
     (fun l hl => by
       rw [show l = "data: garbage" by simpa using hl]
       rfl)).1,
   (claim7_no_data_fails _ "query_weather" [("city", Json.str "Beijing")] (Json.str "Beijing")
     rfl (by decide)
     (fun l hl => by
       rw [show l = "data: garbage" by simpa using hl]
       rfl)).2⟩

/-- C8: a non-2xx gateway status makes `call_tool` fail with
`GatewayHTTPError` carrying that status (`raise_for_status()`), whatever
the body lines hold — the stream is never read (the gateway function, and
with it the lines, is universally quantified and unread). -/
theorem claim8_non_2xx_fails (gateway : Json → GatewayResponse) (toolName : String)
    (args : JObj) (cityVal : Json)
    (hcity : getK (normalizeArgs args) "city" = some cityVal)
    (hbad : ¬(200 ≤ (gateway cityVal).statusCode ∧ (gateway cityVal).statusCode < 300)) :
    (call_tool gateway toolName args).result
      = .error (.gatewayHTTPError (gateway cityVal).statusCode) := by
  rw [call_tool_eq_of_city gateway toolName args cityVal hcity, if_neg hbad]

/-- C8 witness: a 404 response fails with `GatewayHTTPError 404` even
though its body holds a perfectly decodable data line. -/
theorem claim8_witness :
    getK (normalizeArgs [("city", Json.str "Beijing")]) "city" = some (Json.str "Beijing") ∧
    ¬(200 ≤ 404 ∧ 404 < 300) ∧
    (call_tool (fun _ => { statusCode := 404, lines := ["data: \x7b\"temp\": 20\x7d"] })
        "query_weather" [("city", Json.str "Beijing")]).result
      = .error (.gatewayHTTPError 404) :=
  ⟨rfl, by decide,
   claim8_non_2xx_fails (fun _ => { statusCode := 404, lines := ["data: \x7b\"temp\": 20\x7d"] })
     "query_weather" [("city", Json.str "Beijing")] (Json.str "Beijing") rfl (by decide)⟩

/-- C9: `list_tools` is pure and idempotent (two calls are structurally
identical), and the catalog is the single `query_weather` descriptor whose
input schema has `type: object`, a `properties` map declaring `city` as a
string, and `required = ["city"]`. -/
theorem claim9_list_tools_catalog :
    list_tools = list_tools ∧
    list_tools.length = 1 ∧
    (list_tools.headD default).name = "query_weather" ∧
    ((list_tools.headD default).inputSchema).getField "type" = some (.str "object") ∧
    ((((list_tools.headD default).inputSchema).getField "properties").bind
        (fun p => (p.getField "city").bind (fun c => c.getField "type")))
      = some (.str "string") ∧
    ((list_tools.headD default).inputSchema).getField "required"
      = some (.arr [.str "city"]) :=
  ⟨rfl, rfl, rfl, rfl, rfl, rfl⟩

/-- C10: `call_tool` mutates the argument dict it is given: when a synonym
key is present, the dict the caller still holds after the call (the `args`
component of the outcome, Python's in-place mutation made explicit) is the
normalized dict, and that dict differs from the original. -/
theorem claim10_call_tool_mutates_args (gateway : Json → GatewayResponse)
    (toolName : String) (args : JObj)
    (h : hasK args "city_name" = true ∨ hasK args "location" = true) :
    (call_tool gateway toolName args).args = normalizeArgs args ∧
    normalizeArgs args ≠ args := by
  refine ⟨call_tool_args_eq gateway toolName args, ?_⟩
  by_cases hcn : hasK args "city_name" = true
  · simp only [hasK] at hcn
    obtain ⟨v, hv⟩ := Option.isSome_iff_exists.mp hcn
    obtain ⟨rest, hpop⟩ := popK_of_getK args "city_name" v hv
    have hn : normalizeArgs args = setK rest "city" v := by
      simp only [normalizeArgs, hpop]
    rw [hn]
    exact setK_rest_ne args "city_name" v rest (by decide) hpop
  · rcases h with h | h
    · exact absurd h hcn
    · simp only [hasK] at h hcn
      have hgn : getK args "city_name" = none := by
        cases hg : getK args "city_name" with
        | none => rfl
        | some w => exact absurd (by rw [hg]; rfl) hcn
      obtain ⟨v, hv⟩ := Option.isSome_iff_exists.mp h
      obtain ⟨rest, hpop⟩ := popK_of_getK args "location" v hv
      have hn : normalizeArgs args = setK rest "city" v := by
        simp only [normalizeArgs, (popK_none_iff args "city_name").mpr hgn, hpop]
      rw [hn]
      exact setK_rest_ne args "location" v rest (by decide) hpop

/-- C10 witness: dispatching `{"city_name": "Beijing"}` leaves the caller's
dict changed to `{"city": "Beijing"}`. -/
theorem claim10_witness :
    (hasK [("city_name", Json.str "Beijing")] "city_name" = true ∨
      hasK [("city_name", Json.str "Beijing")] "location" = true) ∧
    (call_tool (fun _ => { statusCode := 200, lines := [] }) "query_weather"
        [("city_name", Json.str "Beijing")]).args
      = normalizeArgs [("city_name", Json.str "Beijing")] ∧
    normalizeArgs [("city_name", Json.str "Beijing")] ≠ [("city_name", Json.str "Beijing")] :=
  ⟨Or.inl rfl,
   (claim10_call_tool_mutates_args (fun _ => { statusCode := 200, lines := [] })
     "query_weather" [("city_name", Json.str "Beijing")] (Or.inl rfl)).1,
   (claim10_call_tool_mutates_args (fun _ => { statusCode := 200, lines := [] })
     "query_weather" [("city_name", Json.str "Beijing")] (Or.inl rfl)).2⟩

/-- C4: for every city and upstream behaviour, `GET /weather` responds 200
with a stream of exactly one status event followed by exactly one
data-bearing event — the JSON-encoded upstream body on success, or the
in-stream `{"error": ...}` object when the upstream call raised an
HTTP-status error or any other failure — and nothing after it; the gateway
itself never produces a non-2xx status. -/
theorem claim4_gateway_stream (upstream : String → UpstreamOutcome) (city : String) :
    (get_weather upstream city).statusCode = 200 ∧
    (get_weather upstream city).blocks =
      ["data: " ++ statusNotice ++ "\n\n",
       "data: " ++ (⟨Json.dumps (fetch_weather upstream city)⟩ : String) ++ "\n\n"] ∧
    ((∃ body, upstream city = .ok body ∧ fetch_weather upstream city = body) ∨
     (∃ s, upstream city = .httpStatusError s ∧
        fetch_weather upstream city = .obj [("error", .str ("HTTP 错误: " ++ toString s))]) ∨
     (∃ m, upstream city = .requestFailure m ∧
        fetch_weather upstream city = .obj [("error", .str ("请求失败: " ++ m))])) := by
  refine ⟨rfl, rfl, ?_⟩
  cases h : upstream city with
  | ok body => exact Or.inl ⟨body, rfl, by simp [fetch_weather, h]⟩
  | httpStatusError s => exact Or.inr (Or.inl ⟨s, rfl, by simp [fetch_weather, h]⟩)
  | requestFailure m => exact Or.inr (Or.inr ⟨m, rfl, by simp [fetch_weather, h]⟩)

/-! ## Round trip, numbers: `parseIntTok` inverts `intChars` -/

theorem digitChar_spec (d : Nat) (h : d < 10) :
    (digitChar d).isDigit = true ∧ (digitChar d).toNat = 48 + d := by
  interval_cases d <;> exact ⟨by decide, by decide⟩

theorem natChars_ne_nil (n : Nat) : natChars n ≠ [] := by
  unfold natChars
  by_cases h : n = 0
  · simp [h]
  · simp [h, Nat.digits_ne_nil_iff_ne_zero.mpr h]

theorem natChars_all_digits (n : Nat) : ∀ c ∈ natChars n, c.isDigit = true := by
  intro c hc
  unfold natChars at hc
  by_cases h : n = 0
  · rw [if_pos h] at hc
    simp at hc
    subst hc
    decide
  · rw [if_neg h, List.mem_reverse] at hc
    obtain ⟨d, hd, rfl⟩ := List.mem_map.mp hc
    exact (digitChar_spec d (Nat.digits_lt_base (by norm_num) hd)).1

theorem natChars_head_ne_zero (n : Nat) (hn : n ≠ 0) (c : Char)
    (hc : (natChars n).head? = some c) : c ≠ '0' := by
  unfold natChars at hc
  rw [if_neg hn, List.head?_reverse, List.getLast?_map] at hc
  have hne : Nat.digits 10 n ≠ [] := Nat.digits_ne_nil_iff_ne_zero.mpr hn
  rw [List.getLast?_eq_getLast _ hne] at hc
  simp only [Option.map_some', Option.some.injEq] at hc
  have hdlt : (Nat.digits 10 n).getLast hne < 10 :=
    Nat.digits_lt_base (by norm_num) (List.getLast_mem hne)
  have hdnz : (Nat.digits 10 n).getLast hne ≠ 0 := Nat.getLast_digit_ne_zero 10 hn
  intro h0
  rw [h0] at hc
  have h1 : (digitChar ((Nat.digits 10 n).getLast hne)).toNat = 48 := by
    rw [hc]
    decide
  rw [(digitChar_spec _ hdlt).2] at h1
  exact hdnz (by omega)

theorem digitsVal_map_reverse (l : List Nat) (hl : ∀ d ∈ l, d < 10) :
    digitsVal ((l.map digitChar).reverse) = Nat.ofDigits 10 l := by
  induction l with
  | nil => simp [digitsVal, Nat.ofDigits_nil]
  | cons d t ih =>
      rw [List.map_cons, List.reverse_cons, digitsVal, List.foldl_append]
      simp only [List.foldl_cons, List.foldl_nil]
      rw [show List.foldl (fun a c => 10 * a + (c.toNat - 48)) 0 ((t.map digitChar).reverse)
            = digitsVal ((t.map digitChar).reverse) from rfl,
        ih (fun x hx => hl x (by simp [hx])), (digitChar_spec d (hl d (by simp))).2,
        Nat.ofDigits_cons]
      omega

theorem digitsVal_natChars (n : Nat) : digitsVal (natChars n) = n := by
  unfold natChars
  by_cases h : n = 0
  · rw [if_pos h, h]
    rfl
  · rw [if_neg h, digitsVal_map_reverse _ (fun d hd => Nat.digits_lt_base (by norm_num) hd),
      Nat.ofDigits_digits]

theorem splitDigits_stop (cs : List Char)
    (h : ∀ c, cs.head? = some c → c.isDigit = false) : splitDigits cs = ([], cs) := by
  cases cs with
  | nil => rfl
  | cons c t => simp [splitDigits, h c rfl]

theorem splitDigits_run (ds : List Char) (hds : ∀ c ∈ ds, c.isDigit = true)
    (rest : List Char) (hrest : ∀ c, rest.head? = some c → c.isDigit = false) :
    splitDigits (ds ++ rest) = (ds, rest) := by
  induction ds with
  | nil => exact splitDigits_stop rest hrest
  | cons c t ih =>
      rw [List.cons_append]
      simp [splitDigits, hds c (by simp), ih (fun x hx => hds x (by simp [hx]))]

theorem parseNatTok_natChars (n : Nat) (rest : List Char)
    (hrest : ∀ c, rest.head? = some c → c.isDigit = false) :
    parseNatTok (natChars n ++ rest) = some (n, rest) := by
  have hsplit := splitDigits_run (natChars n) (natChars_all_digits n) rest hrest
  cases hnc : natChars n with
  | nil => exact absurd hnc (natChars_ne_nil n)
  | cons d ds =>
      rw [hnc] at hsplit
      unfold parseNatTok
      rw [hsplit]
      have hcond : ¬(d = '0' ∧ ds ≠ []) := by
        by_cases h0 : n = 0
        · have : natChars n = ['0'] := by rw [h0]; rfl
          rw [hnc] at this
          rintro ⟨-, hds⟩
          exact hds (List.cons.inj this).2
        · rintro ⟨hd0, -⟩
          exact natChars_head_ne_zero n h0 d (by rw [hnc]; rfl) hd0
      show (if d = '0' ∧ ds ≠ [] then none else some (digitsVal (d :: ds), rest))
        = some (n, rest)
      rw [if_neg hcond]
      rw [show digitsVal (d :: ds) = n from by rw [← hnc, digitsVal_natChars]]

theorem parseIntTok_intChars (n : Int) (rest : List Char)
    (hrest : ∀ c, rest.head? = some c → c.isDigit = false) :
    parseIntTok (intChars n ++ rest) = some (n, rest) := by
  unfold intChars
  by_cases hn : n < 0
  · rw [if_pos hn, List.cons_append]
    show (parseNatTok (natChars n.natAbs ++ rest)).map (fun p => (-(p.1 : Int), p.2))
      = some (n, rest)
    rw [parseNatTok_natChars n.natAbs rest hrest]
    simp only [Option.map_some']
    have habs : (-(n.natAbs : Int)) = n := by omega
    rw [habs]
  · rw [if_neg hn]
    cases hnc : natChars n.natAbs with
    | nil => exact absurd hnc (natChars_ne_nil n.natAbs)
    | cons d ds =>
        have hd : d.isDigit = true :=
          natChars_all_digits n.natAbs d (by rw [hnc]; exact List.mem_cons_self d ds)
        have hdm : ¬ d = '-' := by
          intro h
          rw [h] at hd
          exact absurd hd (by decide)
        rw [List.cons_append]
        simp only [parseIntTok, if_neg hdm]
        rw [← List.cons_append, ← hnc, parseNatTok_natChars n.natAbs rest hrest]
        simp only [Option.map_some']
        have habs : ((n.natAbs : Int)) = n := by omega
        rw [habs]

/-! ## Round trip, strings: `parseStrBody` inverts `escBody` -/

theorem hexVal_hexChar (x : Nat) (h : x < 16) : hexVal (hexChar x) = some x := by
  interval_cases x <;> decide

theorem charOfNatAux_eq (n : Nat) (h : n < 55296) :
    Char.ofNatAux n (Or.inl h) = Char.ofNat n := by
  unfold Char.ofNat
  rw [dif_pos (Or.inl h)]

theorem hex4_control (t : Nat) (h : t < 32) :
    hex4 '0' '0' (hexChar (t / 16)) (hexChar (t % 16)) = some t := by
  simp only [hex4, hexVal_hexChar (t / 16) (by omega), hexVal_hexChar (t % 16) (by omega),
    show hexVal '0' = some 0 from rfl, Option.bind_eq_bind, Option.some_bind]
  exact congrArg some (by omega)

theorem parseStrBody_plain (c : Char) (X : List Char) (h1 : c ≠ '"') (h2 : c ≠ '\\')
    (h8 : ¬ c.toNat < 32) :
    parseStrBody (c :: X) = (parseStrBody X).map (fun p => (c :: p.1, p.2)) := by
  rw [parseStrBody.eq_def]
  split
  · rename_i heq
    cases heq
  · rename_i heq
    exact absurd (by cases heq; rfl) h1
  · rename_i heq
    exact absurd (by cases heq; rfl) h2
  · rename_i heq
    exact absurd (by cases heq; rfl) h2
  · rename_i c2 r2 heq
    cases heq
    rw [if_neg h8]

theorem parseStrBody_escBody (s : List Char) (rest : List Char) :
    parseStrBody (escBody s ++ '"' :: rest) = some (s, rest) := by
  induction s with
  | nil => rfl
  | cons c cs ih =>
      show parseStrBody ((escChar c ++ escBody cs) ++ '"' :: rest) = _
      rw [List.append_assoc]
      by_cases h1 : c = '"'
      · subst h1
        rw [show escChar '"' = ['\\', '"'] from rfl,
          show ∀ Y, parseStrBody (['\\', '"'] ++ Y)
              = (parseStrBody Y).map (fun p => ('"' :: p.1, p.2)) from fun Y => rfl,
          ih]
        rfl
      by_cases h2 : c = '\\'
      · subst h2
        rw [show escChar '\\' = ['\\', '\\'] from rfl,
          show ∀ Y, parseStrBody (['\\', '\\'] ++ Y)
              = (parseStrBody Y).map (fun p => ('\\' :: p.1, p.2)) from fun Y => rfl,
          ih]
        rfl
      by_cases h3 : c = '\n'
      · subst h3
        rw [show escChar '\n' = ['\\', 'n'] from rfl,
          show ∀ Y, parseStrBody (['\\', 'n'] ++ Y)
              = (parseStrBody Y).map (fun p => ('\n' :: p.1, p.2)) from fun Y => rfl,
          ih]
        rfl
      by_cases h4 : c = '\t'
      · subst h4
        rw [show escChar '\t' = ['\\', 't'] from rfl,
          show ∀ Y, parseStrBody (['\\', 't'] ++ Y)
              = (parseStrBody Y).map (fun p => ('\t' :: p.1, p.2)) from fun Y => rfl,
          ih]
        rfl
      by_cases h5 : c = '\r'
      · subst h5
        rw [show escChar '\r' = ['\\', 'r'] from rfl,
          show ∀ Y, parseStrBody (['\\', 'r'] ++ Y)
              = (parseStrBody Y).map (fun p => ('\r' :: p.1, p.2)) from fun Y => rfl,
          ih]
        rfl
      by_cases h6 : c = Char.ofNat 8
      · subst h6
        rw [show escChar (Char.ofNat 8) = ['\\', 'b'] from rfl,
          show ∀ Y, parseStrBody (['\\', 'b'] ++ Y)
              = (parseStrBody Y).map (fun p => (Char.ofNat 8 :: p.1, p.2)) from fun Y => rfl,
          ih]
        rfl
      by_cases h7 : c = Char.ofNat 12
      · subst h7
        rw [show escChar (Char.ofNat 12) = ['\\', 'f'] from rfl,
          show ∀ Y, parseStrBody (['\\', 'f'] ++ Y)
              = (parseStrBody Y).map (fun p => (Char.ofNat 12 :: p.1, p.2)) from fun Y => rfl,
          ih]
        rfl
      by_cases h8 : c.toNat < 32
      · rw [show escChar c = ['\\', 'u', '0', '0', hexChar (c.toNat / 16), hexChar (c.toNat % 16)]
            from by
          unfold escChar
          rw [if_neg h1, if_neg h2, if_neg h3, if_neg h4, if_neg h5, if_neg h6, if_neg h7,
            if_pos h8]]
        show (match hex4 '0' '0' (hexChar (c.toNat / 16)) (hexChar (c.toNat % 16)) with
          | some n =>
            if h : n < 55296 then
              (parseStrBody (escBody cs ++ '"' :: rest)).map
                (fun p => (Char.ofNatAux n (Or.inl h) :: p.1, p.2))
            else none
          | none => none) = some (c :: cs, rest)
        rw [hex4_control c.toNat h8]
        show (if h : c.toNat < 55296 then
            (parseStrBody (escBody cs ++ '"' :: rest)).map
              (fun p => (Char.ofNatAux c.toNat (Or.inl h) :: p.1, p.2))
          else none) = some (c :: cs, rest)
        rw [dif_pos (show c.toNat < 55296 by omega), ih,
          charOfNatAux_eq c.toNat (by omega), Char.ofNat_toNat]
        rfl
      · rw [show escChar c = [c] from by
          unfold escChar
          rw [if_neg h1, if_neg h2, if_neg h3, if_neg h4, if_neg h5, if_neg h6, if_neg h7,
            if_neg h8]]
        rw [show [c] ++ (escBody cs ++ '"' :: rest) = c :: (escBody cs ++ '"' :: rest) from rfl,
          parseStrBody_plain c (escBody cs ++ '"' :: rest) h1 h2 h8, ih]
        rfl

/-! ## Heads of serialised values, whitespace and step lemmas -/

theorem isDigit_ne (c x : Char) (h : c.isDigit = true) (hx : x.isDigit = false) :
    c ≠ x := by
  intro e
  rw [e, hx] at h
  exact Bool.noConfusion h

theorem dumps_head (v : Json) : ∃ c t, Json.dumps v = c :: t ∧
    (c = 'n' ∨ c = 't' ∨ c = 'f' ∨ c = '"' ∨ c = '[' ∨ c = '{' ∨ c = '-' ∨
      c.isDigit = true) := by
  cases v with
  | null => exact ⟨'n', _, rfl, by tauto⟩
  | bool b =>
      cases b with
      | true => exact ⟨'t', _, rfl, by tauto⟩
      | false => exact ⟨'f', _, rfl, by tauto⟩
  | num n =>
      show ∃ c t, intChars n = c :: t ∧ _
      unfold intChars
      by_cases hn : n < 0
      · rw [if_pos hn]
        exact ⟨'-', _, rfl, by tauto⟩
      · rw [if_neg hn]
        cases hnc : natChars n.natAbs with
        | nil => exact absurd hnc (natChars_ne_nil _)
        | cons d ds =>
            have hd : d.isDigit = true :=
              natChars_all_digits _ d (by rw [hnc]; exact List.mem_cons_self d ds)
            exact ⟨d, ds, rfl, by tauto⟩
  | str s => exact ⟨'"', _, rfl, by tauto⟩
  | arr items => exact ⟨'[', _, rfl, by tauto⟩
  | obj fields => exact ⟨'{', _, rfl, by tauto⟩

theorem starter_props (c : Char)
    (h : c = 'n' ∨ c = 't' ∨ c = 'f' ∨ c = '"' ∨ c = '[' ∨ c = '{' ∨ c = '-' ∨
      c.isDigit = true) :
    isJsonWs c = false ∧ isPySpace c = false ∧ c ≠ ']' ∧ c ≠ '}' ∧ c ≠ 'd' := by
  rcases h with rfl | rfl | rfl | rfl | rfl | rfl | rfl | hd
  · decide
  · decide
  · decide
  · decide
  · decide
  · decide
  · decide
  · refine ⟨?_, ?_, isDigit_ne c ']' hd (by decide), isDigit_ne c '}' hd (by decide),
      isDigit_ne c 'd' hd (by decide)⟩
    · have e1 := isDigit_ne c ' ' hd (by decide)
      have e2 := isDigit_ne c '\t' hd (by decide)
      have e3 := isDigit_ne c '\n' hd (by decide)
      have e4 := isDigit_ne c '\r' hd (by decide)
      simp [isJsonWs, e1, e2, e3, e4]
    · have e1 := isDigit_ne c ' ' hd (by decide)
      have e2 := isDigit_ne c '\t' hd (by decide)
      have e3 := isDigit_ne c '\n' hd (by decide)
      have e4 := isDigit_ne c '\r' hd (by decide)
      have e5 := isDigit_ne c (Char.ofNat 11) hd (by decide)
      have e6 := isDigit_ne c (Char.ofNat 12) hd (by decide)
      simp [isPySpace, e1, e2, e3, e4, e5, e6]

theorem dumps_head_props (v : Json) : ∃ c t, Json.dumps v = c :: t ∧
    isJsonWs c = false ∧ isPySpace c = false ∧ c ≠ ']' ∧ c ≠ '}' ∧ c ≠ 'd' := by
  obtain ⟨c, t, he, hc⟩ := dumps_head v
  exact ⟨c, t, he, starter_props c hc⟩

theorem dumps_length_pos (v : Json) : 1 ≤ (Json.dumps v).length := by
  obtain ⟨c, t, he, -⟩ := dumps_head v
  rw [he]
  simp

theorem skipWs_not_ws (c : Char) (t : List Char) (h : isJsonWs c = false) :
    skipWs (c :: t) = c :: t := by
  simp [skipWs, h]

theorem numeric_head_ne (c : Char) (h : c = '-' ∨ c.isDigit = true) :
    c ≠ 'n' ∧ c ≠ 't' ∧ c ≠ 'f' ∧ c ≠ '"' ∧ c ≠ '[' ∧ c ≠ '{' := by
  rcases h with rfl | hd
  · exact ⟨by decide, by decide, by decide, by decide, by decide, by decide⟩
  · exact ⟨isDigit_ne c 'n' hd (by decide), isDigit_ne c 't' hd (by decide),
      isDigit_ne c 'f' hd (by decide), isDigit_ne c '"' hd (by decide),
      isDigit_ne c '[' hd (by decide), isDigit_ne c '{' hd (by decide)⟩

theorem intChars_head (n : Int) :
    ∃ c t, intChars n = c :: t ∧ (c = '-' ∨ c.isDigit = true) := by
  unfold intChars
  by_cases hn : n < 0
  · rw [if_pos hn]
    exact ⟨'-', _, rfl, Or.inl rfl⟩
  · rw [if_neg hn]
    cases hnc : natChars n.natAbs with
    | nil => exact absurd hnc (natChars_ne_nil _)
    | cons d ds =>
        exact ⟨d, ds, rfl, Or.inr (natChars_all_digits _ d
          (by rw [hnc]; exact List.mem_cons_self d ds))⟩

theorem parseVal_numeric (f : Nat) (c : Char) (r : List Char)
    (hn : c ≠ 'n') (ht : c ≠ 't') (hf : c ≠ 'f') (hq : c ≠ '"')
    (hlb : c ≠ '[') (hlc : c ≠ '{') (hg : c = '-' ∨ c.isDigit = true) :
    parseVal (f + 1) (c :: r)
      = (parseIntTok (c :: r)).map (fun p => (Json.num p.1, p.2)) := by
  simp only [parseVal]
  split
  · rename_i heq
    exact absurd (by cases heq; rfl) hn
  · rename_i heq
    exact absurd (by cases heq; rfl) ht
  · rename_i heq
    exact absurd (by cases heq; rfl) hf
  · rename_i heq
    exact absurd (by cases heq; rfl) hq
  · rename_i heq
    exact absurd (by cases heq; rfl) hlb
  · rename_i heq
    exact absurd (by cases heq; rfl) hlc
  · rename_i c2 r2 heq
    cases heq
    rw [if_pos (by simpa using hg)]
  · rename_i heq
    cases heq

theorem parseVal_lbracket (f : Nat) (r : List Char) (c : Char) (t : List Char)
    (hr : skipWs r = c :: t) (hc : c ≠ ']') :
    parseVal (f + 1) ('[' :: r)
      = (parseItems f (c :: t)).map (fun p => (Json.arr p.1, p.2)) := by
  show (match skipWs r with
    | ']' :: r2 => some (Json.arr [], r2)
    | cs2 => (parseItems f cs2).map
        (fun p : List Json × List Char => (Json.arr p.1, p.2))) = _
  rw [hr]
  split
  · rename_i r2 heq
    exact absurd (by cases heq; rfl) hc
  · rfl

theorem parseVal_lbrace (f : Nat) (r : List Char) (c : Char) (t : List Char)
    (hr : skipWs r = c :: t) (hc : c ≠ '}') :
    parseVal (f + 1) ('{' :: r)
      = (parseFields f (c :: t)).map (fun p => (Json.obj p.1, p.2)) := by
  show (match skipWs r with
    | '}' :: r2 => some (Json.obj [], r2)
    | cs2 => (parseFields f cs2).map
        (fun p : List (String × Json) × List Char => (Json.obj p.1, p.2))) = _
  rw [hr]
  split
  · rename_i r2 heq
    exact absurd (by cases heq; rfl) hc
  · rfl

theorem parseItems_step (f : Nat) (cs : List Char) :
    parseItems (f + 1) cs =
      (match parseVal f cs with
       | none => none
       | some (v, r) =>
           match skipWs r with
           | ',' :: r2 => (parseItems f (skipWs r2)).map (fun p => (v :: p.1, p.2))
           | ']' :: r2 => some ([v], r2)
           | _ => none) := rfl

theorem dumpsItems_cons (x : Json) (xs : List Json) :
    Json.dumpsItems (x :: xs) = Json.dumps x ++
      (match xs with
       | [] => []
       | y :: ys => ',' :: ' ' :: Json.dumpsItems (y :: ys)) := by
  cases xs with
  | nil => simp [Json.dumpsItems]
  | cons y ys => rfl

theorem dumpsFields_cons (k : String) (v : Json) (fs : List (String × Json)) :
    Json.dumpsFields ((k, v) :: fs) = '"' :: escBody k.data ++ '"' :: ':' :: ' ' ::
      (Json.dumps v ++
        (match fs with
         | [] => []
         | f2 :: fs2 => ',' :: ' ' :: Json.dumpsFields (f2 :: fs2))) := by
  cases fs with
  | nil => simp [Json.dumpsFields]
  | cons f2 fs2 =>
      obtain ⟨k2, v2⟩ := f2
      simp [Json.dumpsFields]

theorem dumpsItems_head_props (x : Json) (xs : List Json) :
    ∃ c t, Json.dumpsItems (x :: xs) = c :: t ∧
      isJsonWs c = false ∧ isPySpace c = false ∧ c ≠ ']' ∧ c ≠ '}' ∧ c ≠ 'd' := by
  obtain ⟨c, t, hct, hprops⟩ := dumps_head_props x
  refine ⟨c, t ++ (match xs with
    | [] => []
    | y :: ys => ',' :: ' ' :: Json.dumpsItems (y :: ys)), ?_, hprops⟩
  rw [dumpsItems_cons x xs, hct, List.cons_append]

theorem dumpsFields_head_props (kv : String × Json) (fs : List (String × Json)) :
    ∃ c t, Json.dumpsFields (kv :: fs) = c :: t ∧
      isJsonWs c = false ∧ isPySpace c = false ∧ c ≠ ']' ∧ c ≠ '}' ∧ c ≠ 'd' := by
  obtain ⟨k, v⟩ := kv
  refine ⟨'"', escBody k.data ++ '"' :: ':' :: ' ' ::
    (Json.dumps v ++ (match fs with
      | [] => []
      | f2 :: fs2 => ',' :: ' ' :: Json.dumpsFields (f2 :: fs2))), ?_, by decide⟩
  rw [dumpsFields_cons k v fs]
  simp

theorem skipWs_append_of_head (l r : List Char) (c : Char) (t : List Char)
    (hl : l = c :: t) (hws : isJsonWs c = false) : skipWs (l ++ r) = l ++ r := by
  rw [hl, List.cons_append]
  exact skipWs_not_ws c _ hws

theorem parseFields_quote (f : Nat) (r : List Char) :
    parseFields (f + 1) ('"' :: r) =
      (match parseStrBody r with
       | none => none
       | some (k, r1) =>
           match skipWs r1 with
           | ':' :: r2 =>
               (match parseVal f (skipWs r2) with
                | none => none
                | some (v, r3) =>
                    match skipWs r3 with
                    | ',' :: r4 =>
                        (parseFields f (skipWs r4)).map
                          (fun p => ((⟨k⟩, v) :: p.1, p.2))
                    | '}' :: r4 => some ([(⟨k⟩, v)], r4)
                    | _ => none)
           | _ => none) := rfl

/-! ## Round trip: parsing a serialised value gives it back -/

mutual
theorem rtVal : ∀ (v : Json) (fuel : Nat) (rest : List Char),
    (Json.dumps v).length < fuel →
    (∀ c, rest.head? = some c → c.isDigit = false) →
    parseVal fuel (Json.dumps v ++ rest) = some (v, rest)
  | .null, fuel, rest, hf, _ => by
      cases fuel with
      | zero => exact absurd hf (Nat.not_lt_zero _)
      | succ f => rfl
  | .bool true, fuel, rest, hf, _ => by
      cases fuel with
      | zero => exact absurd hf (Nat.not_lt_zero _)
      | succ f => rfl
  | .bool false, fuel, rest, hf, _ => by
      cases fuel with
      | zero => exact absurd hf (Nat.not_lt_zero _)
      | succ f => rfl
  | .num n, fuel, rest, hf, hrest => by
      cases fuel with
      | zero => exact absurd hf (Nat.not_lt_zero _)
      | succ f =>
          obtain ⟨c, t, hct, hcg⟩ := intChars_head n
          obtain ⟨hn, ht, hf2, hq, hlb, hlc⟩ := numeric_head_ne c hcg
          have harg : Json.dumps (.num n) ++ rest = c :: (t ++ rest) := by
            show intChars n ++ rest = _
            rw [hct, List.cons_append]
          rw [harg, parseVal_numeric f c (t ++ rest) hn ht hf2 hq hlb hlc hcg,
            show c :: (t ++ rest) = intChars n ++ rest from by rw [hct, List.cons_append],
            parseIntTok_intChars n rest hrest]
          rfl
  | .str s, fuel, rest, hf, _ => by
      cases fuel with
      | zero => exact absurd hf (Nat.not_lt_zero _)
      | succ f =>
          have harg : Json.dumps (.str s) ++ rest
              = '"' :: (escBody s.data ++ '"' :: rest) := by
            show ('"' :: escBody s.data ++ ['"']) ++ rest = _
            simp
          rw [harg]
          show (parseStrBody (escBody s.data ++ '"' :: rest)).map
              (fun p => (Json.str ⟨p.1⟩, p.2)) = _
          rw [parseStrBody_escBody s.data rest]
          rfl
  | .arr [], fuel, rest, hf, _ => by
      cases fuel with
      | zero => exact absurd hf (Nat.not_lt_zero _)
      | succ f => rfl
  | .arr (x :: xs), fuel, rest, hf, _ => by
      cases fuel with
      | zero => exact absurd hf (Nat.not_lt_zero _)
      | succ f =>
          obtain ⟨c, t, hct, hws, -, hne1, -, -⟩ := dumpsItems_head_props x xs
          have harg : Json.dumps (.arr (x :: xs)) ++ rest
              = '[' :: (Json.dumpsItems (x :: xs) ++ ']' :: rest) := by
            show ('[' :: Json.dumpsItems (x :: xs) ++ [']']) ++ rest = _
            simp
          have hlen : (Json.dumpsItems (x :: xs)).length + 1 < f := by
            have h2 : (Json.dumps (.arr (x :: xs))).length
                = (Json.dumpsItems (x :: xs)).length + 2 := by
              show ('[' :: Json.dumpsItems (x :: xs) ++ [']']).length = _
              simp
            omega
          rw [harg, parseVal_lbracket f _ c (t ++ ']' :: rest)
              (by rw [hct, List.cons_append]; exact skipWs_not_ws c _ hws) hne1,
            show c :: (t ++ ']' :: rest) = Json.dumpsItems (x :: xs) ++ ']' :: rest from by
              rw [hct, List.cons_append],
            rtItems x xs f rest hlen]
          rfl
  | .obj [], fuel, rest, hf, _ => by
      cases fuel with
      | zero => exact absurd hf (Nat.not_lt_zero _)
      | succ f => rfl
  | .obj (kv :: fs), fuel, rest, hf, _ => by
      cases fuel with
      | zero => exact absurd hf (Nat.not_lt_zero _)
      | succ f =>
          obtain ⟨c, t, hct, hws, -, -, hne2, -⟩ := dumpsFields_head_props kv fs
          have harg : Json.dumps (.obj (kv :: fs)) ++ rest
              = '{' :: (Json.dumpsFields (kv :: fs) ++ '}' :: rest) := by
            show ('{' :: Json.dumpsFields (kv :: fs) ++ ['}']) ++ rest = _
            simp
          have hlen : (Json.dumpsFields (kv :: fs)).length + 1 < f := by
            have h2 : (Json.dumps (.obj (kv :: fs))).length
                = (Json.dumpsFields (kv :: fs)).length + 2 := by
              show ('{' :: Json.dumpsFields (kv :: fs) ++ ['}']).length = _
              simp
            omega
          rw [harg, parseVal_lbrace f _ c (t ++ '}' :: rest)
              (by rw [hct, List.cons_append]; exact skipWs_not_ws c _ hws) hne2,
            show c :: (t ++ '}' :: rest) = Json.dumpsFields (kv :: fs) ++ '}' :: rest from by
              rw [hct, List.cons_append],
            rtFields kv fs f rest hlen]
          rfl

termination_by v _ _ _ _ => sizeOf v

theorem rtItems : ∀ (x : Json) (xs : List Json) (fuel : Nat) (rest : List Char),
    (Json.dumpsItems (x :: xs)).length + 1 < fuel →
    parseItems fuel (Json.dumpsItems (x :: xs) ++ ']' :: rest) = some (x :: xs, rest)
  | x, xs, 0, rest, hf => absurd hf (Nat.not_lt_zero _)
  | x, [], f + 1, rest, hf => by
      rw [show Json.dumpsItems [x] = Json.dumps x from rfl] at hf
      rw [parseItems_step,
        show Json.dumpsItems [x] ++ ']' :: rest = Json.dumps x ++ ']' :: rest from rfl,
        rtVal x f (']' :: rest) (by omega) (fun c hc => by cases hc; decide)]
      rfl
  | x, y :: ys, f + 1, rest, hf => by
      have hexp : Json.dumpsItems (x :: y :: ys)
          = Json.dumps x ++ ',' :: ' ' :: Json.dumpsItems (y :: ys) := rfl
      rw [hexp] at hf
      simp only [List.length_append, List.length_cons] at hf
      have hx : (Json.dumps x).length < f := by omega
      have hy : (Json.dumpsItems (y :: ys)).length + 1 < f := by omega
      have harg : Json.dumpsItems (x :: y :: ys) ++ ']' :: rest
          = Json.dumps x ++ (',' :: ' ' :: (Json.dumpsItems (y :: ys) ++ ']' :: rest)) := by
        rw [hexp]
        simp
      rw [parseItems_step, harg,
        rtVal x f (',' :: ' ' :: (Json.dumpsItems (y :: ys) ++ ']' :: rest)) hx
          (fun c hc => by cases hc; decide)]
      show (parseItems f (skipWs (' ' :: (Json.dumpsItems (y :: ys) ++ ']' :: rest)))).map
          (fun p => (x :: p.1, p.2)) = some (x :: y :: ys, rest)
      rw [show skipWs (' ' :: (Json.dumpsItems (y :: ys) ++ ']' :: rest))
          = skipWs (Json.dumpsItems (y :: ys) ++ ']' :: rest) from rfl]
      obtain ⟨c, t, hct, hws, -, -, -, -⟩ := dumpsItems_head_props y ys
      rw [skipWs_append_of_head _ _ c t hct hws, rtItems y ys f rest hy]
      rfl

termination_by x xs _ _ _ => sizeOf (x :: xs)

theorem rtFields : ∀ (kv : String × Json) (fs : List (String × Json)) (fuel : Nat)
    (rest : List Char),
    (Json.dumpsFields (kv :: fs)).length + 1 < fuel →
    parseFields fuel (Json.dumpsFields (kv :: fs) ++ '}' :: rest) = some (kv :: fs, rest)
  | (k, v), fs, 0, rest, hf => absurd hf (Nat.not_lt_zero _)
  | (k, v), [], f + 1, rest, hf => by
      have hexp : Json.dumpsFields [(k, v)]
          = '"' :: escBody k.data ++ '"' :: ':' :: ' ' :: Json.dumps v := rfl
      rw [hexp] at hf
      simp only [List.length_append, List.length_cons] at hf
      have hfv : (Json.dumps v).length < f := by omega
      have harg : Json.dumpsFields [(k, v)] ++ '}' :: rest
          = '"' :: (escBody k.data ++ '"' :: (':' :: ' ' :: (Json.dumps v ++ '}' :: rest))) := by
        rw [hexp]
        simp
      rw [harg, parseFields_quote,
        parseStrBody_escBody k.data (':' :: ' ' :: (Json.dumps v ++ '}' :: rest))]
      show (match parseVal f (skipWs (' ' :: (Json.dumps v ++ '}' :: rest))) with
        | none => none
        | some (v2, r3) =>
            match skipWs r3 with
            | ',' :: r4 =>
                (parseFields f (skipWs r4)).map
                  (fun p => ((⟨k.data⟩, v2) :: p.1, p.2))
            | '}' :: r4 => some ([(⟨k.data⟩, v2)], r4)
            | _ => none) = some ([(k, v)], rest)
      rw [show skipWs (' ' :: (Json.dumps v ++ '}' :: rest))
          = skipWs (Json.dumps v ++ '}' :: rest) from rfl]
      obtain ⟨c, t, hct, hws, -, -, -, -⟩ := dumps_head_props v
      rw [skipWs_append_of_head _ _ c t hct hws,
        rtVal v f ('}' :: rest) hfv (fun c2 hc2 => by cases hc2; decide)]
      rfl
  | (k, v), f2 :: fs2, f + 1, rest, hf => by
      have hexp : Json.dumpsFields ((k, v) :: f2 :: fs2)
          = '"' :: escBody k.data ++ '"' :: ':' :: ' ' :: Json.dumps v ++
            ',' :: ' ' :: Json.dumpsFields (f2 :: fs2) := by
        obtain ⟨k2, v2⟩ := f2
        rfl
      rw [hexp] at hf
      simp only [List.length_append, List.length_cons] at hf
      have hfv : (Json.dumps v).length < f := by omega
      have hff : (Json.dumpsFields (f2 :: fs2)).length + 1 < f := by omega
      have harg : Json.dumpsFields ((k, v) :: f2 :: fs2) ++ '}' :: rest
          = '"' :: (escBody k.data ++ '"' :: (':' :: ' ' :: (Json.dumps v ++
              ',' :: ' ' :: (Json.dumpsFields (f2 :: fs2) ++ '}' :: rest)))) := by
        rw [hexp]
        simp
      rw [harg, parseFields_quote,
        parseStrBody_escBody k.data
          (':' :: ' ' :: (Json.dumps v ++ ',' :: ' ' :: (Json.dumpsFields (f2 :: fs2) ++ '}' :: rest)))]
      show (match parseVal f (skipWs (' ' :: (Json.dumps v ++
              ',' :: ' ' :: (Json.dumpsFields (f2 :: fs2) ++ '}' :: rest)))) with
        | none => none
        | some (v2, r3) =>
            match skipWs r3 with
            | ',' :: r4 =>
                (parseFields f (skipWs r4)).map
                  (fun p => ((⟨k.data⟩, v2) :: p.1, p.2))
            | '}' :: r4 => some ([(⟨k.data⟩, v2)], r4)
            | _ => none) = some ((k, v) :: f2 :: fs2, rest)
      rw [show skipWs (' ' :: (Json.dumps v ++
            ',' :: ' ' :: (Json.dumpsFields (f2 :: fs2) ++ '}' :: rest)))
          = skipWs (Json.dumps v ++
            ',' :: ' ' :: (Json.dumpsFields (f2 :: fs2) ++ '}' :: rest)) from rfl]
      obtain ⟨c, t, hct, hws, -, -, -, -⟩ := dumps_head_props v
      rw [skipWs_append_of_head _ _ c t hct hws,
        rtVal v f (',' :: ' ' :: (Json.dumpsFields (f2 :: fs2) ++ '}' :: rest)) hfv
          (fun c2 hc2 => by cases hc2; decide)]
      show (parseFields f (skipWs (' ' :: (Json.dumpsFields (f2 :: fs2) ++ '}' :: rest)))).map
          (fun p => ((⟨k.data⟩, v) :: p.1, p.2)) = some ((k, v) :: f2 :: fs2, rest)
      rw [show skipWs (' ' :: (Json.dumpsFields (f2 :: fs2) ++ '}' :: rest))
          = skipWs (Json.dumpsFields (f2 :: fs2) ++ '}' :: rest) from rfl]
      obtain ⟨c3, t3, hct3, hws3, -, -, -, -⟩ := dumpsFields_head_props f2 fs2
      rw [skipWs_append_of_head _ _ c3 t3 hct3 hws3, rtFields f2 fs2 f rest hff]
      rfl
termination_by kv fs _ _ _ => sizeOf (kv :: fs)
end

/-- Parsing a serialised document gives the value back: the model of
`json.loads(json.dumps(w))` returns `w`. -/
theorem loads_dumps (v : Json) : loads (Json.dumps v) = some v := by
  simp only [loads]
  obtain ⟨c, t, hct, hws, -, -, -, -⟩ := dumps_head_props v
  have hsk : skipWs (Json.dumps v) = Json.dumps v := by
    rw [hct]
    exact skipWs_not_ws c t hws
  rw [hsk]
  have h := rtVal v ((Json.dumps v).length + 1) [] (by omega) (fun c2 hc2 => by simp at hc2)
  rw [List.append_nil] at h
  rw [h]
  rfl

theorem isDigit_not_pyspace (c : Char) (hd : c.isDigit = true) : isPySpace c = false := by
  have e1 := isDigit_ne c ' ' hd (by decide)
  have e2 := isDigit_ne c '\t' hd (by decide)
  have e3 := isDigit_ne c '\n' hd (by decide)
  have e4 := isDigit_ne c '\r' hd (by decide)
  have e5 := isDigit_ne c (Char.ofNat 11) hd (by decide)
  have e6 := isDigit_ne c (Char.ofNat 12) hd (by decide)
  simp [isPySpace, e1, e2, e3, e4, e5, e6]

theorem dumps_last (v : Json) : ∃ t c, Json.dumps v = t ++ [c] ∧
    (c = 'l' ∨ c = 'e' ∨ c = '"' ∨ c = ']' ∨ c = '}' ∨ c.isDigit = true) := by
  cases v with
  | null => exact ⟨['n', 'u', 'l'], 'l', rfl, by tauto⟩
  | bool b =>
      cases b with
      | true => exact ⟨['t', 'r', 'u'], 'e', rfl, by tauto⟩
      | false => exact ⟨['f', 'a', 'l', 's'], 'e', rfl, by tauto⟩
  | num n =>
      show ∃ t c, intChars n = t ++ [c] ∧ _
      have hne := natChars_ne_nil n.natAbs
      have hnat : natChars n.natAbs
          = (natChars n.natAbs).dropLast ++ [(natChars n.natAbs).getLast hne] :=
        (List.dropLast_append_getLast hne).symm
      have hdig : ((natChars n.natAbs).getLast hne).isDigit = true :=
        natChars_all_digits _ _ (List.getLast_mem hne)
      unfold intChars
      by_cases hn : n < 0
      · rw [if_pos hn, hnat]
        exact ⟨'-' :: (natChars n.natAbs).dropLast, _, rfl, by tauto⟩
      · rw [if_neg hn, hnat]
        exact ⟨(natChars n.natAbs).dropLast, _, rfl, by tauto⟩
  | str s => exact ⟨'"' :: escBody s.data, '"', by simp [Json.dumps], by tauto⟩
  | arr items => exact ⟨'[' :: Json.dumpsItems items, ']', by simp [Json.dumps], by tauto⟩
  | obj fields => exact ⟨'{' :: Json.dumpsFields fields, '}', by simp [Json.dumps], by tauto⟩

theorem ender_not_pyspace (c : Char)
    (h : c = 'l' ∨ c = 'e' ∨ c = '"' ∨ c = ']' ∨ c = '}' ∨ c.isDigit = true) :
    isPySpace c = false := by
  rcases h with rfl | rfl | rfl | rfl | rfl | hd
  · decide
  · decide
  · decide
  · decide
  · decide
  · exact isDigit_not_pyspace c hd

theorem pyStrip_spec (l : List Char) (c1 : Char) (t1 : List Char) (hl1 : l = c1 :: t1)
    (h1 : isPySpace c1 = false) (t2 : List Char) (c2 : Char) (hl2 : l = t2 ++ [c2])
    (h2 : isPySpace c2 = false) :
    pyStrip (' ' :: (l ++ ['\n', '\n'])) = l := by
  unfold pyStrip
  have front : List.dropWhile isPySpace (' ' :: (l ++ ['\n', '\n'])) = l ++ ['\n', '\n'] := by
    rw [List.dropWhile_cons, if_pos (by decide)]
    rw [hl1, List.cons_append, List.dropWhile_cons, if_neg (by simp [h1])]
  rw [front]
  have hrev : l.reverse = c2 :: t2.reverse := by
    rw [hl2]
    simp
  have back : List.dropWhile isPySpace ((l ++ ['\n', '\n']).reverse) = l.reverse := by
    rw [List.reverse_append,
      show (['\n', '\n'] : List Char).reverse ++ l.reverse = '\n' :: '\n' :: l.reverse from by
        rfl]
    rw [List.dropWhile_cons, if_pos (by decide), List.dropWhile_cons, if_pos (by decide)]
    rw [hrev, List.dropWhile_cons, if_neg (by simp [h2]), ← hrev]
  rw [back, List.reverse_reverse]

/-- C1: every block of the `GET /weather` body has the form
`data: <payload>\n\n` with exactly one `data:` marker (neither the status
notice nor a serialised JSON document starts with another `data:`), and
stripping the marker from the second block Python-style (`line[5:].strip()`)
yields a string that JSON-decodes to the Weather Result that
`fetch_weather` produced. -/
theorem claim1_block_format (upstream : String → UpstreamOutcome) (city : String) :
    ∃ p1 p2 : String,
      (get_weather upstream city).blocks
        = ["data: " ++ p1 ++ "\n\n", "data: " ++ p2 ++ "\n\n"] ∧
      dataMarker.isPrefixOf p1.data = false ∧
      dataMarker.isPrefixOf p2.data = false ∧
      pyStrip (("data: " ++ p2 ++ "\n\n").data.drop 5) = p2.data ∧
      loads p2.data = some (fetch_weather upstream city) := by
  refine ⟨statusNotice, ⟨Json.dumps (fetch_weather upstream city)⟩, rfl, by decide, ?_, ?_, ?_⟩
  · obtain ⟨c, t, hct, -, -, -, -, hned⟩ := dumps_head_props (fetch_weather upstream city)
    show dataMarker.isPrefixOf (Json.dumps (fetch_weather upstream city)) = false
    rw [hct]
    simp [dataMarker, List.isPrefixOf, Ne.symm hned]
  · have hform : (("data: " : String) ++ ⟨Json.dumps (fetch_weather upstream city)⟩ ++
        "\n\n").data.drop 5
        = ' ' :: (Json.dumps (fetch_weather upstream city) ++ ['\n', '\n']) := by
      rw [String.data_append, String.data_append, List.append_assoc]
      rfl
    rw [hform]
    obtain ⟨c1, t1, hct1, -, hps1, -, -, -⟩ :=
      dumps_head_props (fetch_weather upstream city)
    obtain ⟨t2, c2, hct2, hender⟩ := dumps_last (fetch_weather upstream city)
    exact pyStrip_spec _ c1 t1 hct1 hps1 t2 c2 hct2 (ender_not_pyspace c2 hender)
  · exact loads_dumps (fetch_weather upstream city)

/-- C3 (amended): when the first completion's stop reason indicates a tool
call, `process_query` takes the first tool call, JSON-decodes its argument
payload (failing with `MalformedToolArguments` when it is not valid JSON),
dispatches it through `call_tool`, appends the assistant's tool-call
message and a tool-role message tagged with that call id — carrying the
dispatcher's decoded result value unchanged, not coerced to text — then
returns the text of a second completion requested with no tool catalog;
otherwise it returns the first completion's text directly. -/
theorem claim3_orchestration (llm : List Message → Option (List Json) → Choice)
    (gateway : Json → GatewayResponse) (query : String) :
    (∀ tc rest toolArgs r,
        (llm [Message.user query] (some available_tools)).finish_reason = "tool_calls" →
        (llm [Message.user query] (some available_tools)).tool_calls = tc :: rest →
        loads tc.arguments.data = some (.obj toolArgs) →
        (call_tool gateway tc.functionName toolArgs).result = .ok r →
        process_query llm gateway query =
          { result := .ok (llm [Message.user query,
                Message.assistant (llm [Message.user query] (some available_tools)).content
                  (tc :: rest),
                Message.tool (r.content.headD .null) tc.id] none).content,
            secondCallMessages := some [Message.user query,
              Message.assistant (llm [Message.user query] (some available_tools)).content
                (tc :: rest),
              Message.tool (r.content.headD .null) tc.id],
            gatewayCalls := (call_tool gateway tc.functionName toolArgs).gatewayCalls }) ∧
    (∀ tc rest,
        (llm [Message.user query] (some available_tools)).finish_reason = "tool_calls" →
        (llm [Message.user query] (some available_tools)).tool_calls = tc :: rest →
        loads tc.arguments.data = none →
        (process_query llm gateway query).result = .error .malformedToolArguments) ∧
    ((llm [Message.user query] (some available_tools)).finish_reason ≠ "tool_calls" →
        process_query llm gateway query =
          { result := .ok (llm [Message.user query] (some available_tools)).content,
            secondCallMessages := none, gatewayCalls := [] }) := by
  refine ⟨?_, ?_, ?_⟩
  · intro tc rest toolArgs r hfin htc hargs hok
    simp only [process_query, hfin, htc, hargs, hok, eq_self_iff_true, if_true]
    rfl
  · intro tc rest hfin htc hmal
    simp only [process_query, hfin, htc, hmal, eq_self_iff_true, if_true]
  · intro hfin
    simp only [process_query, if_neg hfin]

/-- C3 (counterexample to the claim as stated): the tool-role message does
*not* carry the dispatcher's result "coerced to text" — the code stores the
decoded value itself (`result.content[0].text` is the parsed object), so in
the end-to-end run the tool message content is the JSON object
`{"temp": 20}`, which is no string. -/
theorem claim3_counterexample :
    (process_query beijingStubModel beijingStubGateway
        "What is the weather in Beijing?").secondCallMessages =
      some [Message.user "What is the weather in Beijing?",
        Message.assistant none
          [{ id := "call_1", functionName := "query_weather",
             arguments := "\x7b\"city\": \"Beijing\"\x7d" }],
        Message.tool (Json.obj [("temp", Json.num 20)]) "call_1"] ∧
    Json.isStr (Json.obj [("temp", Json.num 20)]) = false ∧
    ¬∃ s : String, Json.obj [("temp", Json.num 20)] = Json.str s := by
  refine ⟨rfl, rfl, ?_⟩
  rintro ⟨s, hs⟩
  exact Json.noConfusion hs

/-- C3 witness: the spec's end-to-end scenario — the stub model requests
`query_weather{"city": "Beijing"}`, the stub gateway streams the status
line then `{"temp": 20}`, and `process_query` returns exactly the final
text with the conversation user / assistant-tool-call / tool-result in
order, the tool message tagged with the matching call id. -/
theorem claim3_witness :
    (beijingStubModel [Message.user "What is the weather in Beijing?"]
        (some available_tools)).finish_reason = "tool_calls" ∧
    loads ("\x7b\"city\": \"Beijing\"\x7d" : String).data
      = some (.obj [("city", .str "Beijing")]) ∧
    (call_tool beijingStubGateway "query_weather" [("city", Json.str "Beijing")]).result
      = .ok { content := [Json.obj [("temp", Json.num 20)]] } ∧
    process_query beijingStubModel beijingStubGateway "What is the weather in Beijing?" =
      { result := .ok (some "It is 20°C in Beijing"),
        secondCallMessages := some
          [Message.user "What is the weather in Beijing?",
           Message.assistant none
             [{ id := "call_1", functionName := "query_weather",
                arguments := "\x7b\"city\": \"Beijing\"\x7d" }],
           Message.tool (Json.obj [("temp", Json.num 20)]) "call_1"],
        gatewayCalls := [Json.str "Beijing"] } := by
  refine ⟨rfl, rfl, rfl, ?_⟩
  have h := (claim3_orchestration beijingStubModel beijingStubGateway
      "What is the weather in Beijing?").1
    { id := "call_1", functionName := "query_weather",
      arguments := "\x7b\"city\": \"Beijing\"\x7d" }
    [] [("city", Json.str "Beijing")] { content := [Json.obj [("temp", Json.num 20)]] }
    rfl rfl rfl rfl
  rw [h]
  rfl
